import Mathlib

/-!
Verification of the turn-execution pipeline of the chat backend.

The development shallowly embeds:
  * the per-event normalizer and coordinator of `backend/app/server.py`
    (the body of `chat_endpoint`, the emit closures, `store_message`,
    `update_thread_id`),
  * the event-stream reader and launcher error paths of
    `backend/app/codex.py` (`CodexRunner.stream_turn`),
  * the append-only message log and thread-id cell of
    `backend/app/models.py` restricted to the fields the pipeline touches.

Parsed JSON values are modelled by `JVal`; Python dictionary access,
truthiness, `or`-chains and set membership are modelled by total functions
returning `Except PyErr _` so that the AttributeError / TypeError paths of
the source are visible in the model.
-/

namespace CodexChat

/-- A parsed JSON value, as produced by `json.loads` on one stream line. -/
inductive JVal where
  | null
  | bool (b : Bool)
  | num (n : Int)
  | str (s : String)
  | arr (xs : List JVal)
  | obj (fields : List (String × JVal))

/-- Python truthiness of a JSON value (`bool(v)`). -/
def JVal.truthy : JVal → Bool
  | .null => false
  | .bool b => b
  | .num n => n != 0
  | .str s => s != ""
  | .arr xs => !xs.isEmpty
  | .obj fs => !fs.isEmpty

/-- Lookup of a key in the field list of a JSON object (`dict.__getitem__`
via `dict.get`); keys are assumed distinct, as produced by `json.loads`. -/
def jlook : List (String × JVal) → String → Option JVal
  | [], _ => none
  | (k, v) :: rest, key => if k = key then some v else jlook rest key

/-- Python exceptions that can escape the event-processing code and that are
not `CodexInvocationError`: attribute access on a non-dict, membership test
on an unhashable value, and the OSError raised by
`asyncio.create_subprocess_exec` when the binary is missing. -/
inductive PyErr where
  | attributeError
  | typeError
  | osError

/-- `v.get(k)`: returns the field for dictionaries and raises
AttributeError on any other value. -/
def pyGet (v : JVal) (k : String) : Except PyErr (Option JVal) :=
  match v with
  | .obj fs => .ok (jlook fs k)
  | _ => .error .attributeError

/-- `v.get(k, d)`: like `pyGet` but with an explicit default, returned only
when the key is absent (a present falsy or null field is still returned). -/
def pyGetD (v : JVal) (k : String) (d : JVal) : Except PyErr JVal :=
  match v with
  | .obj fs => .ok ((jlook fs k).getD d)
  | _ => .error .attributeError

/-- Truthiness of a Python value that may be `None` (`Option JVal`). -/
def optTruthy : Option JVal → Bool
  | some v => v.truthy
  | none => false

/-- Python `a or b` on values that may be `None`. -/
def pyOrElse (a : Option JVal) (b : Option JVal) : Option JVal :=
  if optTruthy a then a else b

/-- Python `a or d` where `d` is a known non-`None` default, as in
`event.get("payload") or \x7b\x7d`. -/
def pyOrDefault (a : Option JVal) (d : JVal) : JVal :=
  match a with
  | some v => if v.truthy then v else d
  | none => d

/-- Python `x == "s"` where `x` is a value or `None`: true exactly for the
equal string. -/
def jeq (o : Option JVal) (s : String) : Bool :=
  match o with
  | some (.str t) => t == s
  | _ => false

/-- Python `x in <set of strings>`: string members are compared, hashable
non-strings are simply absent, unhashable values (lists, dicts) raise
TypeError. -/
def jmem (o : Option JVal) (ss : List String) : Except PyErr Bool :=
  match o with
  | some (.arr _) => .error .typeError
  | some (.obj _) => .error .typeError
  | some (.str s) => .ok (ss.contains s)
  | _ => .ok false

/-- `isinstance(x, str) and x` used as a branch guard: the contained string
when the value is a non-empty string. -/
def asNonemptyStr : Option JVal → Option String
  | some (.str s) => if s ≠ "" then some s else none
  | _ => none

/-- Concatenation of the `text` fields of the dict entries of a block list,
skipping non-dict entries and non-string texts (loop body of
`_append_text_blocks` in `server.py`). -/
def textBlocks (xs : List JVal) : String :=
  String.join (xs.filterMap fun b =>
    match b with
    | .obj fs =>
      match jlook fs "text" with
      | some (.str s) => some s
      | _ => none
    | _ => none)

/-- `_append_text_blocks(blocks)` from `server.py`: empty string for a falsy
argument, the joined texts for a list; iterating a truthy dict yields its
string keys and a truthy string yields its characters, neither of which is
a dict, so both give the empty string; iterating a truthy number or `True`
raises TypeError. -/
def appendTextBlocks (v : Option JVal) : Except PyErr String :=
  match v with
  | none => .ok ""
  | some w =>
    if w.truthy then
      match w with
      | .arr xs => .ok (textBlocks xs)
      | .obj _ => .ok ""
      | .str _ => .ok ""
      | _ => .error .typeError
    else .ok ""

/-! ### Persistence store -/

/-- The slice of the database visible to one connection: whether the
`ChatSession` row exists, the append-only message log of that session
(role, content), and the `codex_thread_id` cell. -/
structure Db where
  chatPresent : Bool
  messages : List (String × String)
  threadId : Option JVal

/-- `store_message(role, content)` from `server.py`: a silent no-op when the
`ChatSession` row is absent, otherwise appends one `Message` row. -/
def storeMessage (db : Db) (role content : String) : Db :=
  if db.chatPresent then
    { db with messages := db.messages ++ [(role, content)] }
  else db

/-- `update_thread_id(thread_id)` from `server.py`: writes the cell only
when the row exists and the stored id is falsy (absent or empty). -/
def updateThreadId (db : Db) (tid : JVal) : Db :=
  if db.chatPresent && !(optTruthy db.threadId) then
    { db with threadId := some tid }
  else db

/-! ### Outbound wire messages -/

/-- One `websocket.send_json` call. The JSON shapes of `server.py` are:
`reasoningDelta c` for the reasoning message with a true `partial` flag,
`reasoningFinal c` for the reasoning message without it,
`assistantDelta c` for `assistant_partial`, `assistantFinal c` for
`assistant`, and `errorMsg v` for `error` (whose content can be any JSON
value, as in the `turn.failed` branch). -/
inductive Wire where
  | reasoningDelta (content : String)
  | reasoningFinal (content : String)
  | assistantDelta (content : String)
  | assistantFinal (content : String)
  | errorMsg (content : JVal)

/-- Loop control after one event: continue with the next event or break out
of the `async for` (the `turn.failed` and `error` branches). -/
inductive Ctl where
  | next
  | brk

/-- The canonical action the classification chain of `chat_endpoint`
selects for one raw event, before any state is consulted (except that the
`response_item`/`message` shape checks the finalize-once flag, kept as the
separate constructor `assistantFinalIfNotSent`). -/
inductive Action where
  | nothing
  | threadStarted (v : JVal)
  | reasoningDelta (d : String)
  | reasoningFinal (t : String)
  | sectionBreak
  | assistantDelta (d : String)
  | assistantFinal (t : String)
  | assistantFinalIfNotSent (t : String)
  | turnFailed (msg : JVal)
  | errorEvt (msg : JVal)

/-- The per-connection mutable state of `chat_endpoint`: the two delta
buffers, the finalize-once flag, the local `codex_thread_id` variable and
the database slice. -/
structure TurnSt where
  rbuf : String
  abuf : String
  finalSent : Bool
  localThread : Option JVal
  db : Db

/-- `emit_reasoning_delta`: no-op on the empty delta, otherwise append to
the buffer and send the whole buffer as a partial reasoning message. -/
def emitReasoningDelta (rbuf delta : String) : String × List Wire :=
  if delta = "" then (rbuf, [])
  else (rbuf ++ delta, [.reasoningDelta (rbuf ++ delta)])

/-- `emit_reasoning_final`: the provided text or, when it is empty, the
buffer; nothing is sent when both are empty, otherwise the buffer is reset
and the final text sent. -/
def emitReasoningFinal (rbuf text : String) : String × List Wire :=
  let ft := if text = "" then rbuf else text
  if ft = "" then (rbuf, [])
  else ("", [.reasoningFinal ft])

/-- `emit_assistant_delta`: mirror of `emitReasoningDelta` on the assistant
channel. -/
def emitAssistantDelta (abuf delta : String) : String × List Wire :=
  if delta = "" then (abuf, [])
  else (abuf ++ delta, [.assistantDelta (abuf ++ delta)])

/-- `emit_assistant_final`: resolve the final text against the buffer; when
non-empty, reset the buffer, send the final, and persist the assistant
message only when the finalize-once flag is not yet set, setting it.
Returns the new buffer, the new flag, the new database and the sends. -/
def emitAssistantFinal (abuf : String) (flag : Bool) (text : String) (db : Db) :
    String × Bool × Db × List Wire :=
  let ft := if text = "" then abuf else text
  if ft = "" then (abuf, flag, db, [])
  else ("", true, if flag then db else storeMessage db "assistant" ft,
        [.assistantFinal ft])

/-- Application of one classified action to the connection state, mirroring
the branch bodies of `chat_endpoint`. -/
def applyAction (st : TurnSt) : Action → TurnSt × List Wire × Ctl
  | .nothing => (st, [], .next)
  | .threadStarted v =>
    if v.truthy && !(optTruthy st.localThread) then
      ({ st with localThread := some v, db := updateThreadId st.db v }, [], .next)
    else (st, [], .next)
  | .reasoningDelta d =>
    let (b, w) := emitReasoningDelta st.rbuf d
    ({ st with rbuf := b }, w, .next)
  | .reasoningFinal t =>
    let (b, w) := emitReasoningFinal st.rbuf t
    ({ st with rbuf := b }, w, .next)
  | .sectionBreak => ({ st with rbuf := "" }, [], .next)
  | .assistantDelta d =>
    let (b, w) := emitAssistantDelta st.abuf d
    ({ st with abuf := b }, w, .next)
  | .assistantFinal t =>
    let (b, f, db, w) := emitAssistantFinal st.abuf st.finalSent t st.db
    ({ st with abuf := b, finalSent := f, db := db }, w, .next)
  | .assistantFinalIfNotSent t =>
    if st.finalSent then (st, [], .next)
    else
      let (b, f, db, w) := emitAssistantFinal st.abuf st.finalSent t st.db
      ({ st with abuf := b, finalSent := f, db := db }, w, .next)
  | .turnFailed m => (st, [.errorMsg m], .brk)
  | .errorEvt m => (st, [.errorMsg m], .brk)

/-- The classification chain of `chat_endpoint` (lines 388 to 480 of
`server.py`), one raw event to one action. The three leading reads happen
for every event: `event.get("type")`, `event.get("payload") or \x7b\x7d`,
and `payload.get("type")`; the second raises AttributeError when the event
is not a dict and the third when a present truthy payload is not a dict. -/
def classify (ev : JVal) : Except PyErr Action := do
  let etype ← pyGet ev "type"
  let payloadRaw ← pyGet ev "payload"
  let payload := pyOrDefault payloadRaw (JVal.obj [])
  let ptype ← pyGet payload "type"
  if jeq etype "thread.started" then
    match (← pyGet ev "thread_id") with
    | some v => pure (.threadStarted v)
    | none => pure .nothing
  else if jeq etype "event_msg" then
    if (← jmem ptype ["agent_reasoning_delta", "agent_reasoning_raw_content_delta"]) then
      let d1 ← pyGet payload "delta"
      let d2 ← pyGet payload "message"
      let d3 ← pyGet payload "text"
      match pyOrElse d1 (pyOrElse d2 d3) with
      | some (.str s) => pure (.reasoningDelta s)
      | _ => pure .nothing
    else if (← jmem ptype ["agent_reasoning", "agent_reasoning_raw_content"]) then
      let t1 ← pyGet payload "message"
      let t2 ← pyGet payload "text"
      match pyOrElse t1 t2 with
      | some (.str s) => pure (.reasoningFinal s)
      | _ => pure .nothing
    else if jeq ptype "agent_reasoning_section_break" then
      pure .sectionBreak
    else if jeq ptype "agent_message_delta" then
      match (← pyGet payload "delta") with
      | some (.str s) => pure (.assistantDelta s)
      | _ => pure .nothing
    else if jeq ptype "agent_message" then
      match (← pyGet payload "message") with
      | some (.str s) => pure (.assistantFinal s)
      | _ => pure .nothing
    else
      pure .nothing
  else if jeq etype "response_item" then
    if (← jmem ptype ["reasoning", "raw_reasoning"]) then
      let blocks ← appendTextBlocks (← pyGet payload "content")
      if blocks ≠ "" then pure (.reasoningFinal blocks) else pure .nothing
    else if (← jmem ptype ["reasoning_delta", "raw_reasoning_delta"]) then
      let blocks ← appendTextBlocks (← pyGet payload "content")
      let textv ←
        if blocks ≠ "" then pure (JVal.str blocks)
        else pyGetD payload "delta" (.str "")
      match textv with
      | .str s => if s ≠ "" then pure (.reasoningDelta s) else pure .nothing
      | _ => pure .nothing
    else if (← jmem ptype ["message_delta", "output_text_delta"]) then
      match asNonemptyStr (← pyGet payload "delta") with
      | some s => pure (.assistantDelta s)
      | none =>
        let combined ← appendTextBlocks (← pyGet payload "content")
        if combined ≠ "" then pure (.assistantDelta combined) else pure .nothing
    else if jeq ptype "message" then
      if jeq (← pyGet payload "role") "assistant" then
        let rt ← appendTextBlocks (← pyGet payload "content")
        if rt ≠ "" then pure (.assistantFinalIfNotSent rt) else pure .nothing
      else pure .nothing
    else
      pure .nothing
  else if jeq etype "agent_reasoning_delta" then
    match (← pyGet ev "delta") with
    | some (.str s) => pure (.reasoningDelta s)
    | _ => pure .nothing
  else if jeq etype "agent_message_delta" then
    match (← pyGet ev "delta") with
    | some (.str s) => pure (.assistantDelta s)
    | _ => pure .nothing
  else if jeq etype "item.completed" then
    let item := pyOrDefault (← pyGet ev "item") (JVal.obj [])
    let itype ← pyGet item "type"
    if jeq itype "reasoning" then
      match (← pyGetD item "text" (.str "")) with
      | .str s => if s ≠ "" then pure (.reasoningFinal s) else pure .nothing
      | _ => pure .nothing
    else if jeq itype "agent_message" then
      match (← pyGetD item "text" (.str "")) with
      | .str s => if s ≠ "" then pure (.assistantFinal s) else pure .nothing
      | _ => pure .nothing
    else
      pure .nothing
  else if jeq etype "item.updated" then
    let item := pyOrDefault (← pyGet ev "item") (JVal.obj [])
    let itype ← pyGet item "type"
    if jeq itype "reasoning" then
      match (← pyGetD item "text" (.str "")) with
      | .str s => pure (.reasoningDelta s)
      | _ => pure .nothing
    else
      pure .nothing
  else if jeq etype "turn.failed" then
    let errObj ← pyGetD ev "error" (JVal.obj [])
    let msg ← pyGetD errObj "message" (.str "Codex turn failed.")
    pure (.turnFailed msg)
  else if jeq etype "error" then
    let msg ← pyGetD ev "message" (.str "")
    pure (.errorEvt msg)
  else if jeq etype "agent_reasoning" then
    match (← pyGet ev "text") with
    | some (.str s) => pure (.reasoningFinal s)
    | _ => pure .nothing
  else if jeq etype "agent_message" then
    match (← pyGet ev "text") with
    | some (.str s) => pure (.assistantFinal s)
    | _ => pure .nothing
  else
    pure .nothing

/-- Processing of one event inside the turn loop: classification followed by
the state update; a Python exception in classification aborts before any
send of this event, matching the source where all sends are the last
statement of their branch. -/
def processEvent (st : TurnSt) (ev : JVal) : Except PyErr (TurnSt × List Wire × Ctl) :=
  match classify ev with
  | .error e => .error e
  | .ok a => .ok (applyAction st a)

/-! ### The turn loop over a list of events -/

/-- How the `async for` loop over events ended: normally or by `break`
(`done`), or by a Python exception escaping the loop body (`crashed`). -/
inductive TurnEnd where
  | done (c : Ctl)
  | crashed (e : PyErr)

/-- The `async for event in runner.stream_turn(...)` loop body applied to a
list of already-yielded events: accumulates the sends, threads the state,
stops at a `break` or at an escaping exception. -/
def runEvents (st : TurnSt) : List JVal → List Wire × TurnSt × TurnEnd
  | [] => ([], st, .done .next)
  | e :: rest =>
    match processEvent st e with
    | .error pe => ([], st, .crashed pe)
    | .ok (st1, out, .brk) => (out, st1, .done .brk)
    | .ok (st1, out, .next) =>
      let (outs, st2, r) := runEvents st1 rest
      (out ++ outs, st2, r)

/-! ### Event stream reader and launcher (`codex.py`) -/

/-- One line of the primary output stream after `decode("utf-8").strip()`:
blank, a line parsing to the JSON value `j`, or a line `raw` on which
`json.loads` raises. -/
inductive LineResult where
  | blank
  | ok (j : JVal)
  | bad (raw : String)

/-- Whether a line fails to parse. -/
def LineResult.isBad : LineResult → Bool
  | .bad _ => true
  | _ => false

/-- The read loop of `CodexRunner.stream_turn`: skip blank lines, yield
parsed values in order, and end the sequence at the first undecodable line
with the `CodexInvocationError` message built there; no later line is read. -/
def readLines : List LineResult → List JVal × Option String
  | [] => ([], none)
  | .blank :: rest => readLines rest
  | .ok j :: rest =>
    let (evs, e) := readLines rest
    (j :: evs, e)
  | .bad raw :: _ => ([], some ("Failed to decode Codex event: " ++ raw))

/-- How the stream terminates after the yielded events: normal end of
stream, a `CodexInvocationError` raised by the generator (decode failure,
missing stdout pipe, or non-zero exit), or the OSError raised by
`create_subprocess_exec` when the binary cannot be located or executed. -/
inductive StreamTerm where
  | normal
  | invocationError (msg : String)
  | osError

/-- Python `str.strip()`: drop leading and trailing whitespace characters,
keeping interior whitespace. -/
def pyStrip (s : String) : String :=
  ⟨((s.data.dropWhile Char.isWhitespace).reverse.dropWhile Char.isWhitespace).reverse⟩

/-- The message of the non-zero-exit `CodexInvocationError`:
`f"Codex exited with code {return_code}: {stderr_text.strip()}"`. -/
def invocationMsg (exitCode : Int) (stderr : String) : String :=
  "Codex exited with code " ++ toString exitCode ++ ": " ++ pyStrip stderr

/-- The behaviour of one subprocess spawn, as the environment presents it:
the binary is missing or unexecutable, the stdout pipe is unavailable after
spawn, or the process runs producing the given primary-stream lines, exit
code and drained diagnostic text. -/
inductive SpawnBehavior where
  | fileNotFound
  | noStdout
  | run (lines : List LineResult) (exitCode : Int) (stderr : String)

/-- Events yielded and termination of `CodexRunner.stream_turn` for one
spawn. A missing binary raises OSError at the first iteration, before any
event; a missing stdout pipe raises `CodexInvocationError` there; a decode
failure ends the stream before the exit status is ever consulted; otherwise
a non-zero exit raises `CodexInvocationError` carrying the stripped
diagnostic text after all events. -/
def spawnOutcome : SpawnBehavior → List JVal × StreamTerm
  | .fileNotFound => ([], .osError)
  | .noStdout => ([], .invocationError "Codex process missing stdout pipe.")
  | .run lines exitCode stderr =>
    let (evs, de) := readLines lines
    match de with
    | some m => (evs, .invocationError m)
    | none =>
      if exitCode != 0 then (evs, .invocationError (invocationMsg exitCode stderr))
      else (evs, .normal)

/-- The per-turn reset of `chat_endpoint`: both buffers emptied and the
finalize-once flag cleared before the stream is consumed. -/
def resetTurn (st : TurnSt) : TurnSt :=
  { st with rbuf := "", abuf := "", finalSent := false }

/-- One whole turn after the user message is stored: reset the buffers,
consume the streamed events, then surface the stream termination. A
`CodexInvocationError` from the generator is caught by the handler at the
bottom of the turn and sent as one error message; an OSError or an
exception from the loop body is not caught and escapes (`some e`). A
`break` leaves the generator before it can raise its termination error. -/
def runTurn (st0 : TurnSt) (sb : SpawnBehavior) : List Wire × TurnSt × Option PyErr :=
  let st := resetTurn st0
  let (evs, term) := spawnOutcome sb
  let (out, st1, e) := runEvents st evs
  match e with
  | .crashed pe => (out, st1, some pe)
  | .done .brk => (out, st1, none)
  | .done .next =>
    match term with
    | .normal => (out, st1, none)
    | .invocationError m => (out ++ [.errorMsg (.str m)], st1, none)
    | .osError => (out, st1, some .osError)

/-! ### The connection loop -/

/-- One inbound client frame together with the behaviour the subprocess
would exhibit if this frame starts a turn. -/
inductive Inbound where
  | msg (payload : JVal) (sb : SpawnBehavior)

/-- The `while True` receive loop of `chat_endpoint`: frames that are not
the user-text shape get an error message and the loop continues; a valid
user message is persisted and a turn is run; an uncaught exception ends the
loop (the final component is `true` exactly then), leaving later frames
unprocessed. -/
def runConn (st : TurnSt) : List Inbound → List Wire × TurnSt × Bool
  | [] => ([], st, false)
  | .msg p sb :: rest =>
    match pyGet p "type" with
    | .error _ => ([], st, true)
    | .ok t =>
      if !(jeq t "user_message") then
        let (outs, st1, cl) := runConn st rest
        (.errorMsg (.str "Unsupported message type.") :: outs, st1, cl)
      else
        match pyGet p "content" with
        | .error _ => ([], st, true)
        | .ok c =>
          match c with
          | some (.str content) =>
            let stStored := { st with db := storeMessage st.db "user" content }
            let (out, st1, pe) := runTurn stStored sb
            match pe with
            | some _ => (out, st1, true)
            | none =>
              let (outs, st2, cl) := runConn st1 rest
              (out ++ outs, st2, cl)
          | _ =>
            let (outs, st1, cl) := runConn st rest
            (.errorMsg (.str "Message content must be string.") :: outs, st1, cl)

/-! ### Counting helpers and concrete fixtures -/

/-- Number of outbound `assistant` final messages in a send list. -/
def countAF : List Wire → Nat
  | [] => 0
  | .assistantFinal _ :: r => countAF r + 1
  | _ :: r => countAF r

/-- Number of persisted assistant `Message` rows. -/
def persistedA (db : Db) : Nat :=
  (db.messages.filter fun m => m.1 = "assistant").length

/-- An `event_msg` envelope with inner type `agent_message` and text `m`. -/
def emAm (m : String) : JVal :=
  .obj [("type", .str "event_msg"),
        ("payload", .obj [("type", .str "agent_message"), ("message", .str m)])]

/-- An `event_msg` envelope with inner type `agent_reasoning_delta` and
delta `d`. -/
def emArd (d : String) : JVal :=
  .obj [("type", .str "event_msg"),
        ("payload", .obj [("type", .str "agent_reasoning_delta"), ("delta", .str d)])]

/-- An `event_msg` envelope with inner type `agent_reasoning_section_break`. -/
def emSectionBreak : JVal :=
  .obj [("type", .str "event_msg"),
        ("payload", .obj [("type", .str "agent_reasoning_section_break")])]

/-- A valid inbound user-text frame. -/
def userMsg (c : String) : JVal :=
  .obj [("type", .str "user_message"), ("content", .str c)]

/-- A fresh connection state over an existing `ChatSession` row with an
empty message log and no thread id. -/
def stP : TurnSt :=
  { rbuf := "", abuf := "", finalSent := false, localThread := none,
    db := { chatPresent := true, messages := [], threadId := none } }

/-- A connection state whose session already has a stored, non-empty thread
id (both in the database cell and in the local variable). -/
def stT : TurnSt :=
  { rbuf := "", abuf := "", finalSent := false,
    localThread := some (.str "t1"),
    db := { chatPresent := true, messages := [], threadId := some (.str "t1") } }

/-- A `response_item` reasoning-delta event carrying both an explicit
`delta` field and a non-empty `content` block list. -/
def c3ev : JVal :=
  .obj [("type", .str "response_item"),
        ("payload", .obj [("type", .str "reasoning_delta"), ("delta", .str "D"),
                          ("content", .arr [.obj [("text", .str "B")]])])]

/-- An event of an unrecognized shape whose `payload` field is a truthy
non-dict value. -/
def c9ev : JVal := .obj [("type", .str "mystery_event"), ("payload", .str "hi")]

/-- Whether the outer `type` of an event matches any branch of the
classification chain. -/
def outerRecognized (t : Option JVal) : Bool :=
  jeq t "thread.started" || jeq t "event_msg" || jeq t "response_item" ||
  jeq t "agent_reasoning_delta" || jeq t "agent_message_delta" ||
  jeq t "item.completed" || jeq t "item.updated" ||
  jeq t "turn.failed" || jeq t "error" ||
  jeq t "agent_reasoning" || jeq t "agent_message"

/-- The inner type of an `event_msg` envelope matches no recognized branch
and its shape tests raise no exception. -/
def emInnerIgnored (t : Option JVal) : Prop :=
  jmem t ["agent_reasoning_delta", "agent_reasoning_raw_content_delta"] = .ok false ∧
  jmem t ["agent_reasoning", "agent_reasoning_raw_content"] = .ok false ∧
  jeq t "agent_reasoning_section_break" = false ∧
  jeq t "agent_message_delta" = false ∧
  jeq t "agent_message" = false ∧
  jeq t "token_count" = false

/-- The inner type of a `response_item` envelope matches no recognized
branch and its shape tests raise no exception. -/
def riInnerIgnored (t : Option JVal) : Prop :=
  jmem t ["reasoning", "raw_reasoning"] = .ok false ∧
  jmem t ["reasoning_delta", "raw_reasoning_delta"] = .ok false ∧
  jmem t ["message_delta", "output_text_delta"] = .ok false ∧
  jeq t "message" = false

/-! ### Shared lemmas -/

theorem jeq_true_iff (o : Option JVal) (s : String) :
    jeq o s = true ↔ o = some (.str s) := by
  cases o with
  | none => simp [jeq]
  | some v => cases v <;> simp [jeq]

theorem countAF_append (a b : List Wire) :
    countAF (a ++ b) = countAF a + countAF b := by
  induction a with
  | nil => simp [countAF]
  | cons w r ih => cases w <;> simp [countAF, ih] <;> omega

theorem storeMessage_chatPresent (db : Db) (r c : String) :
    (storeMessage db r c).chatPresent = db.chatPresent := by
  unfold storeMessage; split <;> rfl

theorem storeMessage_threadId (db : Db) (r c : String) :
    (storeMessage db r c).threadId = db.threadId := by
  unfold storeMessage; split <;> rfl

theorem updateThreadId_chatPresent (db : Db) (v : JVal) :
    (updateThreadId db v).chatPresent = db.chatPresent := by
  unfold updateThreadId; split <;> rfl

theorem updateThreadId_messages (db : Db) (v : JVal) :
    (updateThreadId db v).messages = db.messages := by
  unfold updateThreadId; split <;> rfl

theorem updateThreadId_of_truthy (db : Db) (v : JVal)
    (h : optTruthy db.threadId = true) : updateThreadId db v = db := by
  unfold updateThreadId; simp [h]

theorem persistedA_updateThreadId (db : Db) (v : JVal) :
    persistedA (updateThreadId db v) = persistedA db := by
  unfold persistedA; rw [updateThreadId_messages]

theorem persistedA_store_assistant (db : Db) (c : String)
    (h : db.chatPresent = true) :
    persistedA (storeMessage db "assistant" c) = persistedA db + 1 := by
  simp [storeMessage, h, persistedA, List.filter_append]

theorem processEvent_ok (st : TurnSt) (ev : JVal) (r : TurnSt × List Wire × Ctl)
    (h : processEvent st ev = .ok r) :
    ∃ a, classify ev = .ok a ∧ applyAction st a = r := by
  unfold processEvent at h
  cases hc : classify ev with
  | error e => rw [hc] at h; exact absurd h (by simp)
  | ok a => rw [hc] at h; exact ⟨a, rfl, by injection h⟩

/-- Invariant of one action application on the assistant channel: the
`ChatSession` presence never changes, the finalize-once flag is set exactly
when a final was ever sent, and (when the row exists) the persisted
assistant count grows by one exactly on the first final of the turn. -/
theorem applyAction_assistant_inv (st : TurnSt) (a : Action) :
    ((applyAction st a).1).db.chatPresent = st.db.chatPresent ∧
    ((applyAction st a).1).finalSent
      = (st.finalSent || (countAF (applyAction st a).2.1 != 0)) ∧
    (st.db.chatPresent = true →
      persistedA ((applyAction st a).1).db
        = persistedA st.db
          + if st.finalSent = false ∧ countAF (applyAction st a).2.1 != 0
            then 1 else 0) := by
  obtain ⟨rb, ab, fs, lt, db⟩ := st
  cases a with
  | nothing => simp [applyAction, countAF]
  | threadStarted v =>
    by_cases h : v.truthy && !(optTruthy lt) <;>
      simp [applyAction, h, countAF, updateThreadId_chatPresent,
            persistedA_updateThreadId]
  | reasoningDelta d =>
    simp only [applyAction, emitReasoningDelta]
    split <;> simp [countAF]
  | reasoningFinal t =>
    simp only [applyAction, emitReasoningFinal]
    by_cases ht : t = "" <;> by_cases hb : rb = "" <;>
      simp [ht, hb, countAF]
  | sectionBreak => simp [applyAction, countAF]
  | assistantDelta d =>
    simp only [applyAction, emitAssistantDelta]
    split <;> simp [countAF]
  | assistantFinal t =>
    simp only [applyAction, emitAssistantFinal]
    by_cases ht : t = ""
    · by_cases hb : ab = "" <;> cases fs <;>
        simp [ht, hb, countAF, storeMessage_chatPresent] <;>
        exact fun h => persistedA_store_assistant _ _ h
    · cases fs <;>
        simp [ht, countAF, storeMessage_chatPresent] <;>
        exact fun h => persistedA_store_assistant _ _ h
  | assistantFinalIfNotSent t =>
    cases fs with
    | true => simp [applyAction, countAF]
    | false =>
      simp only [applyAction, emitAssistantFinal]
      by_cases ht : t = ""
      · by_cases hb : ab = "" <;>
          simp [ht, hb, countAF, storeMessage_chatPresent] <;>
          exact fun h => persistedA_store_assistant _ _ h
      · simp [ht, countAF, storeMessage_chatPresent]
        exact fun h => persistedA_store_assistant _ _ h
  | turnFailed m => simp [applyAction, countAF]
  | errorEvt m => simp [applyAction, countAF]

theorem add_bne_zero (x y : Nat) :
    ((x + y) != 0) = ((x != 0) || (y != 0)) := by
  cases x <;> cases y <;> simp [Nat.succ_add]

/-- Invariant of a whole event list: the `ChatSession` presence never
changes, the finalize-once flag records whether an assistant final was
sent, and the persisted assistant count grows by one exactly when the turn
sent at least one assistant final while the flag started clear. -/
theorem runEvents_assistant_inv (evs : List JVal) (st : TurnSt)
    (h : st.db.chatPresent = true) :
    ((runEvents st evs).2.1).db.chatPresent = true ∧
    ((runEvents st evs).2.1).finalSent
      = (st.finalSent || (countAF (runEvents st evs).1 != 0)) ∧
    persistedA ((runEvents st evs).2.1).db
      = persistedA st.db
        + if st.finalSent = false ∧ countAF (runEvents st evs).1 != 0
          then 1 else 0 := by
  induction evs generalizing st with
  | nil => simp [runEvents, countAF, h]
  | cons e rest ih =>
    cases hpe : processEvent st e with
    | error pe => simp [runEvents, hpe, countAF, h]
    | ok res =>
      obtain ⟨st1, out, ctl⟩ := res
      obtain ⟨a, hca, hap⟩ := processEvent_ok st e _ hpe
      have hstep := applyAction_assistant_inv st a
      rw [hap] at hstep
      obtain ⟨hcp, hflag, hpers⟩ := hstep
      simp only at hcp hflag hpers
      cases ctl with
      | brk =>
        simp only [runEvents, hpe]
        exact ⟨by rw [hcp]; exact h, hflag, hpers h⟩
      | next =>
        have h1 : st1.db.chatPresent = true := by rw [hcp]; exact h
        have ihh := ih st1 h1
        rcases hre : runEvents st1 rest with ⟨outs, st2, r⟩
        rw [hre] at ihh
        simp only at ihh
        obtain ⟨ih1, ih2, ih3⟩ := ihh
        simp only [runEvents, hpe, hre]
        refine ⟨ih1, ?_, ?_⟩
        · rw [ih2, hflag, countAF_append, add_bne_zero, Bool.or_assoc]
        · rw [ih3, hpers h, countAF_append, add_bne_zero]
          cases hsf : st.finalSent with
          | true =>
            rw [hsf] at hflag
            simp at hflag
            simp [hflag]
          | false =>
            rw [hsf] at hflag
            simp only [Bool.false_or] at hflag
            by_cases ho : countAF out = 0
            · simp [hflag, ho]
            · have hb : (countAF out != 0) = true := by simp [ho]
              rw [hb] at hflag
              simp [hflag, ho]

/-- Once the stored thread id is truthy, no action changes it. -/
theorem applyAction_threadId_frozen (st : TurnSt) (a : Action)
    (h : optTruthy st.db.threadId = true) :
    ((applyAction st a).1).db.threadId = st.db.threadId := by
  obtain ⟨rb, ab, fs, lt, db⟩ := st
  simp only at h
  cases a with
  | nothing => rfl
  | threadStarted v =>
    by_cases hg : v.truthy && !(optTruthy lt) <;>
      simp [applyAction, hg, updateThreadId_of_truthy _ _ h]
  | reasoningDelta d => simp only [applyAction, emitReasoningDelta]
  | reasoningFinal t => simp only [applyAction, emitReasoningFinal]
  | sectionBreak => rfl
  | assistantDelta d => simp only [applyAction, emitAssistantDelta]
  | assistantFinal t =>
    simp only [applyAction, emitAssistantFinal]
    by_cases hft : (if t = "" then ab else t) = ""
    · simp [hft]
    · cases fs <;> simp [hft, storeMessage_threadId]
  | assistantFinalIfNotSent t =>
    cases fs with
    | true => rfl
    | false =>
      simp only [applyAction, emitAssistantFinal]
      by_cases hft : (if t = "" then ab else t) = ""
      · simp [hft]
      · simp [hft, storeMessage_threadId]
  | turnFailed m => rfl
  | errorEvt m => rfl

/-- Actions other than a thread-started signal never touch the stored
thread id. -/
theorem applyAction_threadId_other (st : TurnSt) (a : Action)
    (h : ∀ v, a ≠ .threadStarted v) :
    ((applyAction st a).1).db.threadId = st.db.threadId := by
  obtain ⟨rb, ab, fs, lt, db⟩ := st
  cases a with
  | nothing => rfl
  | threadStarted v => exact absurd rfl (h v)
  | reasoningDelta d => simp only [applyAction, emitReasoningDelta]
  | reasoningFinal t => simp only [applyAction, emitReasoningFinal]
  | sectionBreak => rfl
  | assistantDelta d => simp only [applyAction, emitAssistantDelta]
  | assistantFinal t =>
    simp only [applyAction, emitAssistantFinal]
    by_cases hft : (if t = "" then ab else t) = ""
    · simp [hft]
    · cases fs <;> simp [hft, storeMessage_threadId]
  | assistantFinalIfNotSent t =>
    cases fs with
    | true => rfl
    | false =>
      simp only [applyAction, emitAssistantFinal]
      by_cases hft : (if t = "" then ab else t) = ""
      · simp [hft]
      · simp [hft, storeMessage_threadId]
  | turnFailed m => rfl
  | errorEvt m => rfl

/-- A truthy stored thread id survives any event list unchanged. -/
theorem runEvents_threadId_frozen (evs : List JVal) (st : TurnSt)
    (h : optTruthy st.db.threadId = true) :
    ((runEvents st evs).2.1).db.threadId = st.db.threadId := by
  induction evs generalizing st with
  | nil => simp [runEvents]
  | cons e rest ih =>
    cases hpe : processEvent st e with
    | error pe => simp [runEvents, hpe]
    | ok res =>
      obtain ⟨st1, out, ctl⟩ := res
      obtain ⟨a, hca, hap⟩ := processEvent_ok st e _ hpe
      have hstep := applyAction_threadId_frozen st a h
      rw [hap] at hstep
      simp only at hstep
      cases ctl with
      | brk => simp only [runEvents, hpe]; exact hstep
      | next =>
        rcases hre : runEvents st1 rest with ⟨outs, st2, r⟩
        have h1 : optTruthy st1.db.threadId = true := by rw [hstep]; exact h
        have ihh := ih st1 h1
        rw [hre] at ihh
        simp only at ihh
        simp only [runEvents, hpe, hre]
        rw [ihh, hstep]

/-- An event list with no thread-started classification leaves the stored
thread id unchanged. -/
theorem runEvents_threadId_noTS (evs : List JVal) (st : TurnSt)
    (h : ∀ ev ∈ evs, ∀ v, classify ev ≠ .ok (.threadStarted v)) :
    ((runEvents st evs).2.1).db.threadId = st.db.threadId := by
  induction evs generalizing st with
  | nil => simp [runEvents]
  | cons e rest ih =>
    cases hpe : processEvent st e with
    | error pe => simp [runEvents, hpe]
    | ok res =>
      obtain ⟨st1, out, ctl⟩ := res
      obtain ⟨a, hca, hap⟩ := processEvent_ok st e _ hpe
      have hna : ∀ v, a ≠ .threadStarted v := by
        intro v hv
        exact h e (List.mem_cons_self e rest) v (by rw [hca, hv])
      have hstep := applyAction_threadId_other st a hna
      rw [hap] at hstep
      simp only at hstep
      cases ctl with
      | brk => simp only [runEvents, hpe]; exact hstep
      | next =>
        rcases hre : runEvents st1 rest with ⟨outs, st2, r⟩
        have ihh := ih st1 (fun ev hev v => h ev (List.mem_cons_of_mem e hev) v)
        rw [hre] at ihh
        simp only at ihh
        simp only [runEvents, hpe, hre]
        rw [ihh, hstep]

/-- The read loop stops at the first undecodable line: everything decoded
before it is kept, the error message carries the offending line, and
nothing after it is read. -/
theorem readLines_stops_at_bad (pre post : List LineResult) (raw : String)
    (h : ∀ l ∈ pre, l.isBad = false) :
    readLines (pre ++ .bad raw :: post)
      = ((readLines pre).1, some ("Failed to decode Codex event: " ++ raw)) := by
  induction pre with
  | nil => simp [readLines]
  | cons l rest ih =>
    have hrest : ∀ x ∈ rest, x.isBad = false :=
      fun x hx => h x (List.mem_cons_of_mem l hx)
    cases l with
    | blank => simpa [readLines] using ih hrest
    | ok j => simp [readLines, ih hrest]
    | bad r =>
      exact absurd (h _ (List.mem_cons_self _ _)) (by simp [LineResult.isBad])

/-! ### Claims -/

/-- Claim C10: when the `ChatSession` row is absent at persistence time,
`store_message` is a silent no-op for every role and content: the database
is returned unchanged (in particular no `Message` row is appended), and the
function is total, so no error is raised or forwarded. -/
theorem c10_theorem (db : Db) (role content : String)
    (h : db.chatPresent = false) :
    storeMessage db role content = db ∧
    (storeMessage db role content).messages = db.messages := by
  unfold storeMessage
  simp [h]

theorem c10_witness :
    storeMessage { chatPresent := false, messages := [], threadId := none }
        "assistant" "hello"
      = { chatPresent := false, messages := [], threadId := none } :=
  (c10_theorem { chatPresent := false, messages := [], threadId := none }
    "assistant" "hello" rfl).1

/-- Claim C7: the stored thread id is first-write-wins and immutable once
non-empty. Once the database cell is truthy no event list changes it; an
event list that classifies to no thread-started signal leaves it untouched
(never cleared or overwritten); and once the local thread variable is
truthy a thread-started signal is ignored entirely. -/
theorem c7_theorem (st : TurnSt) (evs : List JVal) :
    (optTruthy st.db.threadId = true →
      ((runEvents st evs).2.1).db.threadId = st.db.threadId) ∧
    ((∀ ev ∈ evs, ∀ v, classify ev ≠ .ok (.threadStarted v)) →
      ((runEvents st evs).2.1).db.threadId = st.db.threadId) ∧
    (∀ v, optTruthy st.localThread = true →
      applyAction st (.threadStarted v) = (st, [], .next)) := by
  refine ⟨fun h => runEvents_threadId_frozen evs st h,
          fun h => runEvents_threadId_noTS evs st h, ?_⟩
  intro v h
  simp [applyAction, h]

theorem c7_witness :
    ((runEvents stT [emAm "A"]).2.1).db.threadId = stT.db.threadId ∧
    applyAction stT (.threadStarted (.str "t2")) = (stT, [], .next) :=
  ⟨(c7_theorem stT [emAm "A"]).1 rfl,
   (c7_theorem stT [emAm "A"]).2.2 (.str "t2") rfl⟩

/-- Claim C2, counterexample: when the agent binary cannot be located
(`create_subprocess_exec` raises OSError), the claim fails: no outbound
signal at all is sent (in particular no turn-error signal), the exception
escapes the `except CodexInvocationError` handler, the connection is closed
abnormally, and a subsequent inbound user message is never processed (its
user text is not even persisted). -/
theorem c2_counterexample :
    runConn stP [.msg (userMsg "hi") .fileNotFound,
                 .msg (userMsg "again") (.run [] 0 "")]
      = ([], { stP with db := storeMessage stP.db "user" "hi" }, true) ∧
    ({ stP with db := storeMessage stP.db "user" "hi" } : TurnSt).db.messages
      = [("user", "hi")] :=
  ⟨rfl, rfl⟩

/-- Claim C2, amended: a spawn failure is surfaced as a single turn-error
signal with the session remaining usable only in the missing-stdout case
(`CodexInvocationError`, caught by the turn handler); when the binary
cannot be located or executed, the OSError is not caught: no outbound
signal is emitted for that turn, the connection terminates, and later
inbound messages are not processed. -/
theorem c2_theorem (st : TurnSt) (c : String) (rest : List Inbound) :
    runConn st (.msg (userMsg c) .fileNotFound :: rest)
      = ([], resetTurn { st with db := storeMessage st.db "user" c }, true) ∧
    runConn st (.msg (userMsg c) .noStdout :: rest)
      = (Wire.errorMsg (.str "Codex process missing stdout pipe.")
           :: (runConn (resetTurn { st with db := storeMessage st.db "user" c }) rest).1,
         (runConn (resetTurn { st with db := storeMessage st.db "user" c }) rest).2.1,
         (runConn (resetTurn { st with db := storeMessage st.db "user" c }) rest).2.2) := by
  constructor <;> rfl

/-- Claim C5, counterexample: with no primary lines, exit code 1 and
diagnostic text ending in a newline, the error signal carries the stripped
diagnostic text, not the full drained text: the full text (with its
newline) occurs nowhere in the message. -/
theorem c5_counterexample :
    (runTurn stP (.run [] 1 "boom\n")).1
      = [.errorMsg (.str "Codex exited with code 1: boom")] ∧
    ¬ ∃ a b : String, "Codex exited with code 1: boom" = a ++ "boom\n" ++ b := by
  refine ⟨rfl, ?_⟩
  rintro ⟨a, b, h⟩
  have hm : '\n' ∈ ("Codex exited with code 1: boom").data := by
    rw [h]
    simp [String.data_append]
  exact absurd hm (by decide)

/-- Claim C5, amended: a turn whose subprocess produces no primary lines
and exits non-zero yields a single outbound error signal whose message is
the exit code followed by the diagnostic text stripped of leading and
trailing whitespace, and no message of any kind is persisted for the turn
(the state is returned with only the buffers reset). -/
theorem c5_theorem (st : TurnSt) (exitCode : Int) (stderr : String)
    (h : exitCode ≠ 0) :
    runTurn st (.run [] exitCode stderr)
      = ([.errorMsg (.str ("Codex exited with code " ++ toString exitCode
            ++ ": " ++ pyStrip stderr))], resetTurn st, none) ∧
    (resetTurn st).db = st.db := by
  refine ⟨?_, rfl⟩
  simp only [runTurn, spawnOutcome, readLines, invocationMsg]
  simp [h, runEvents]

theorem c5_witness :
    runTurn stP (.run [] 2 " boom ")
      = ([.errorMsg (.str "Codex exited with code 2: boom")], resetTurn stP, none) :=
  (c5_theorem stP 2 " boom " (by decide)).1

/-- Claim C1, counterexample: a turn whose event sequence holds two
assistant-final-producing `event_msg`/`agent_message` events emits the
outbound `assistant` final signal twice (the finalize-once flag gates only
persistence, not emission), while exactly one assistant message is
persisted. -/
theorem c1_counterexample :
    (runTurn stP (.run [.ok (emAm "A"), .ok (emAm "B")] 0 "")).1
      = [.assistantFinal "A", .assistantFinal "B"] ∧
    ((runTurn stP (.run [.ok (emAm "A"), .ok (emAm "B")] 0 "")).2.1).db.messages
      = [("assistant", "A")] :=
  ⟨rfl, rfl⟩

/-- Claim C1, amended: over any spawn behaviour and any event sequence,
when the `ChatSession` row exists exactly one assistant message is
persisted per turn that emits at least one outbound `assistant` final
signal, and none otherwise — regardless of delta count, ordering, and of
how many final signals are emitted (the final signal itself may be emitted
more than once, as the counterexample shows). -/
theorem c1_theorem (st : TurnSt) (sb : SpawnBehavior)
    (h : st.db.chatPresent = true) :
    persistedA ((runTurn st sb).2.1).db
      = persistedA st.db + if countAF (runTurn st sb).1 != 0 then 1 else 0 := by
  rcases hso : spawnOutcome sb with ⟨evs, term⟩
  have inv := runEvents_assistant_inv evs (resetTurn st) h
  rcases hre : runEvents (resetTurn st) evs with ⟨out0, st2, e⟩
  rw [hre] at inv
  simp only at inv
  obtain ⟨i1, i2, i3⟩ := inv
  have hfs : (resetTurn st).finalSent = false := rfl
  rw [hfs] at i3
  simp only [eq_self_iff_true, true_and] at i3
  have hdb : (resetTurn st).db = st.db := rfl
  rw [hdb] at i3
  simp only [runTurn, hso, hre]
  cases e with
  | crashed pe => simpa using i3
  | done c =>
    cases c with
    | brk => simpa using i3
    | next =>
      cases term with
      | normal => simpa using i3
      | invocationError m =>
        simpa [countAF_append, countAF] using i3
      | osError => simpa using i3

theorem c1_witness :
    persistedA ((runTurn stP (.run [.ok (emAm "hello")] 0 "")).2.1).db
      = persistedA stP.db
        + if countAF (runTurn stP (.run [.ok (emAm "hello")] 0 "")).1 != 0
          then 1 else 0 :=
  c1_theorem stP (.run [.ok (emAm "hello")] 0 "") rfl

/-- Claim C4: when line N is the first non-blank undecodable line of the
primary stream, the event sequence ends at line N with a decode error
carrying the raw line text, nothing after line N contributes any signal
(the result does not depend on the lines after it), and everything emitted
and persisted from the lines before N stands: the turn ends in the state
reached after the prefix, with exactly one trailing error signal appended. -/
theorem c4_theorem (pre post : List LineResult) (raw : String) (st : TurnSt)
    (exitCode : Int) (stderr : String) (out : List Wire) (st1 : TurnSt)
    (hpre : ∀ l ∈ pre, l.isBad = false)
    (hrun : runEvents (resetTurn st) (readLines pre).1 = (out, st1, .done .next)) :
    readLines (pre ++ .bad raw :: post)
      = ((readLines pre).1, some ("Failed to decode Codex event: " ++ raw)) ∧
    runTurn st (.run (pre ++ .bad raw :: post) exitCode stderr)
      = (out ++ [.errorMsg (.str ("Failed to decode Codex event: " ++ raw))],
         st1, none) := by
  have h1 := readLines_stops_at_bad pre post raw hpre
  refine ⟨h1, ?_⟩
  simp only [runTurn, spawnOutcome, h1, hrun]

theorem c4_witness :
    readLines ([.ok (emArd "a")] ++ .bad "oops" :: [.ok (emAm "z")])
      = ([emArd "a"], some "Failed to decode Codex event: oops") ∧
    runTurn stP (.run ([.ok (emArd "a")] ++ .bad "oops" :: [.ok (emAm "z")]) 0 "")
      = ([.reasoningDelta "a", .errorMsg (.str "Failed to decode Codex event: oops")],
         { stP with rbuf := "a" }, none) :=
  c4_theorem [.ok (emArd "a")] [.ok (emAm "z")] "oops" stP 0 ""
    [.reasoningDelta "a"] { stP with rbuf := "a" } (by decide) rfl

/-- Claim C6: from any reachable buffer state — hence under any
interleaving of reasoning and assistant delta events — every outbound
reasoning partial emission and every `assistant_partial` emission carries
exactly the full accumulated buffer of its channel: the previous buffer
content extended by the delta of the triggering event, which is also the
buffer content after the step; the buffer is reset to empty by a section
break (which emits nothing) and by every emitting final of its channel. -/
theorem c6_theorem (st : TurnSt) (a : Action) :
    (∀ s, Wire.reasoningDelta s ∈ (applyAction st a).2.1 →
        s = ((applyAction st a).1).rbuf ∧
        ∃ d, a = .reasoningDelta d ∧ s = st.rbuf ++ d) ∧
    (∀ s, Wire.assistantDelta s ∈ (applyAction st a).2.1 →
        s = ((applyAction st a).1).abuf ∧
        ∃ d, a = .assistantDelta d ∧ s = st.abuf ++ d) ∧
    (a = .sectionBreak →
        ((applyAction st a).1).rbuf = "" ∧ (applyAction st a).2.1 = []) ∧
    (∀ t, a = .reasoningFinal t → (applyAction st a).2.1 ≠ [] →
        ((applyAction st a).1).rbuf = "") ∧
    (∀ t, a = .assistantFinal t → (applyAction st a).2.1 ≠ [] →
        ((applyAction st a).1).abuf = "") := by
  obtain ⟨rb, ab, fs, lt, db⟩ := st
  cases a with
  | nothing => simp [applyAction]
  | threadStarted v =>
    by_cases hg : v.truthy && !(optTruthy lt) <;> simp [applyAction, hg]
  | reasoningDelta d =>
    by_cases hd : d = "" <;> simp [applyAction, emitReasoningDelta, hd]
  | reasoningFinal t =>
    simp only [applyAction, emitReasoningFinal]
    by_cases hft : (if t = "" then rb else t) = "" <;> simp [hft]
  | sectionBreak => simp [applyAction]
  | assistantDelta d =>
    by_cases hd : d = "" <;> simp [applyAction, emitAssistantDelta, hd]
  | assistantFinal t =>
    simp only [applyAction, emitAssistantFinal]
    by_cases hft : (if t = "" then ab else t) = "" <;> cases fs <;> simp [hft]
  | assistantFinalIfNotSent t =>
    cases fs with
    | true => simp [applyAction]
    | false =>
      simp only [applyAction, emitAssistantFinal]
      by_cases hft : (if t = "" then ab else t) = "" <;> simp [hft]
  | turnFailed m => simp [applyAction]
  | errorEvt m => simp [applyAction]

theorem c6_witness :
    ("ab" : String) = ((applyAction stP (.reasoningDelta "ab")).1).rbuf ∧
    ∃ d, Action.reasoningDelta "ab" = Action.reasoningDelta d ∧
      ("ab" : String) = stP.rbuf ++ d :=
  (c6_theorem stP (.reasoningDelta "ab")).1 "ab" (List.mem_singleton.mpr rfl)

/-- Claim C8: an `event_msg` envelope with inner type
agent_reasoning_section_break emits nothing and resets the reasoning
buffer, so of two surrounding reasoning deltas the first partial carries
the prior buffer extended by the first delta while the second partial
carries only the second delta and none of the first delta text. -/
theorem c8_theorem (st : TurnSt) (d1 d2 : String)
    (h1 : d1 ≠ "") (h2 : d2 ≠ "") :
    runEvents st [emArd d1, emSectionBreak, emArd d2]
      = ([.reasoningDelta (st.rbuf ++ d1), .reasoningDelta d2],
         { st with rbuf := d2 }, .done .next) := by
  have hc1 : classify (emArd d1) = .ok (.reasoningDelta d1) := by
    simp [classify, emArd, pyGet, jlook, pyOrDefault, jeq, jmem, pyOrElse,
          optTruthy, JVal.truthy, h1, bind, Except.bind, pure, Except.pure]
  have hc2 : classify emSectionBreak = .ok .sectionBreak := rfl
  have hc3 : classify (emArd d2) = .ok (.reasoningDelta d2) := by
    simp [classify, emArd, pyGet, jlook, pyOrDefault, jeq, jmem, pyOrElse,
          optTruthy, JVal.truthy, h2, bind, Except.bind, pure, Except.pure]
  simp [runEvents, processEvent, hc1, hc2, hc3, applyAction,
        emitReasoningDelta, h1, h2]

theorem c8_witness :
    runEvents stP [emArd "a", emSectionBreak, emArd "b"]
      = ([.reasoningDelta "a", .reasoningDelta "b"],
         { stP with rbuf := "b" }, .done .next) :=
  c8_theorem stP "a" "b" (by decide) (by decide)

/-- Claim C3, counterexample: a `response_item` reasoning-delta event whose
payload carries both an explicit `delta` field ("D") and a non-empty
`content` block list ("B") emits the concatenated blocks, not the delta. -/
theorem c3_counterexample :
    classify c3ev = .ok (.reasoningDelta "B") ∧ ("B" : String) ≠ "D" :=
  ⟨rfl, by decide⟩

/-- Claim C3, amended: for a `response_item` event with inner type
reasoning_delta or raw_reasoning_delta, the emitted ReasoningDelta text is
the concatenation of the text blocks in `content` whenever that
concatenation is non-empty, and only otherwise the payload `delta` field
(defaulting to the empty string); the emission is skipped when the chosen
value is not a string or is empty. -/
theorem c3_theorem (pfs : List (String × JVal)) (s : String)
    (hty : jlook pfs "type" = some (.str "reasoning_delta")
           ∨ jlook pfs "type" = some (.str "raw_reasoning_delta"))
    (hblocks : appendTextBlocks (jlook pfs "content") = .ok s) :
    classify (.obj [("type", .str "response_item"), ("payload", .obj pfs)])
      = .ok (if s ≠ "" then .reasoningDelta s
             else match (jlook pfs "delta").getD (.str "") with
                  | .str d => if d ≠ "" then .reasoningDelta d else .nothing
                  | _ => .nothing) := by
  cases pfs with
  | nil => rcases hty with h | h <;> simp [jlook] at h
  | cons p0 prest =>
    have hTy : pyGet (JVal.obj [("type", .str "response_item"),
        ("payload", .obj (p0 :: prest))]) "type"
        = .ok (some (.str "response_item")) := rfl
    have hPl : pyGet (JVal.obj [("type", .str "response_item"),
        ("payload", .obj (p0 :: prest))]) "payload"
        = .ok (some (.obj (p0 :: prest))) := rfl
    have hPt : pyGet (.obj (p0 :: prest)) "type"
        = .ok (jlook (p0 :: prest) "type") := rfl
    have hCt : pyGet (.obj (p0 :: prest)) "content"
        = .ok (jlook (p0 :: prest) "content") := rfl
    have hDl : pyGetD (.obj (p0 :: prest)) "delta" (.str "")
        = .ok ((jlook (p0 :: prest) "delta").getD (.str "")) := rfl
    have htr : JVal.truthy (.obj (p0 :: prest)) = true := by simp [JVal.truthy]
    rcases hty with h | h <;>
      (simp [classify, hTy, hPl, hPt, hCt, hDl, pyOrDefault, htr, jeq, jmem,
             h, hblocks, bind, Except.bind, pure, Except.pure]
       by_cases hs : s = "" <;> simp [hs] <;>
         (try (cases (jlook (p0 :: prest) "delta").getD (JVal.str "") <;>
               simp [apply_ite])))

theorem c3_witness :
    classify (.obj [("type", .str "response_item"),
        ("payload", .obj [("type", .str "raw_reasoning_delta"),
                          ("delta", .str "D")])])
      = .ok (.reasoningDelta "D") := by
  have h := c3_theorem [("type", .str "raw_reasoning_delta"), ("delta", .str "D")]
    "" (Or.inr rfl) rfl
  simpa using h

/-- Claim C9, counterexample: an event of unrecognized shape whose truthy
`payload` field is not a dict makes the mandatory `payload.get("type")`
read raise AttributeError: classification is not total, the exception is
not caught, and the connection ends abnormally with no outbound message. -/
theorem c9_counterexample :
    classify c9ev = .error .attributeError ∧
    processEvent stP c9ev = .error .attributeError ∧
    runConn stP [.msg (userMsg "hi") (.run [.ok c9ev] 0 "")]
      = ([], { stP with db := storeMessage stP.db "user" "hi" }, true) :=
  ⟨rfl, rfl, rfl⟩

/-- Claim C9, amended: classification is forward-compatible for every
parsed JSON event object provided its `payload` field, when present and
truthy, is a JSON object and — for `event_msg` and `response_item`
envelopes — the inner `type` is not an unhashable value: if the outer type
matches no recognized branch, or the envelope is `event_msg` or
`response_item` with an inner type matching no recognized branch,
processing yields no canonical signal, no outbound message, no state
change, and no error. Without the proviso the payload read raises
AttributeError, as the counterexample shows. -/
theorem c9_theorem (st : TurnSt) (fs gs : List (String × JVal))
    (hpay : pyOrDefault (jlook fs "payload") (.obj []) = .obj gs)
    (hshape :
      outerRecognized (jlook fs "type") = false
      ∨ (jeq (jlook fs "type") "event_msg" = true
          ∧ emInnerIgnored (jlook gs "type"))
      ∨ (jeq (jlook fs "type") "response_item" = true
          ∧ riInnerIgnored (jlook gs "type"))) :
    classify (.obj fs) = .ok .nothing ∧
    processEvent st (.obj fs) = .ok (st, [], .next) := by
  have hTy : pyGet (.obj fs) "type" = .ok (jlook fs "type") := rfl
  have hPl : pyGet (.obj fs) "payload" = .ok (jlook fs "payload") := rfl
  have hPt : pyGet (.obj gs) "type" = .ok (jlook gs "type") := rfl
  have hcl : classify (.obj fs) = .ok .nothing := by
    rcases hshape with hout | ⟨hem, hi⟩ | ⟨hri, hi⟩
    · simp only [outerRecognized, Bool.or_eq_false_iff] at hout
      obtain ⟨⟨⟨⟨⟨⟨⟨⟨⟨⟨h1, h2⟩, h3⟩, h4⟩, h5⟩, h6⟩, h7⟩, h8⟩, h9⟩, h10⟩, h11⟩ :=
        hout
      simp [classify, hTy, hPl, hPt, hpay, h1, h2, h3, h4, h5, h6, h7, h8,
            h9, h10, h11, bind, Except.bind, pure, Except.pure]
    · have ht : jlook fs "type" = some (.str "event_msg") :=
        (jeq_true_iff _ _).mp hem
      obtain ⟨m1, m2, m3, m4, m5, m6⟩ := hi
      have e1 : jeq (some (JVal.str "event_msg")) "thread.started" = false := rfl
      have e2 : jeq (some (JVal.str "event_msg")) "event_msg" = true := rfl
      simp [classify, hTy, hPl, hPt, hpay, ht, e1, e2, m1, m2, m3, m4, m5, m6,
            bind, Except.bind, pure, Except.pure]
    · have ht : jlook fs "type" = some (.str "response_item") :=
        (jeq_true_iff _ _).mp hri
      obtain ⟨m1, m2, m3, m4⟩ := hi
      have e1 : jeq (some (JVal.str "response_item")) "thread.started" = false := rfl
      have e2 : jeq (some (JVal.str "response_item")) "event_msg" = false := rfl
      have e3 : jeq (some (JVal.str "response_item")) "response_item" = true := rfl
      simp [classify, hTy, hPl, hPt, hpay, ht, e1, e2, e3, m1, m2, m3, m4,
            bind, Except.bind, pure, Except.pure]
  exact ⟨hcl, by simp [processEvent, hcl, applyAction]⟩

theorem c9_witness :
    classify (.obj [("type", .str "totally_new_event")]) = .ok .nothing ∧
    processEvent stP (.obj [("type", .str "totally_new_event")])
      = .ok (stP, [], .next) :=
  c9_theorem stP [("type", .str "totally_new_event")] [] rfl (Or.inl rfl)

end CodexChat
